import Mathlib

/-!
Verification development for the dexvt-lite CCD inverse-kinematics demos
(src/src/main_rail.cpp and src/src/main_stewart.cpp).

The repository sources under src/ are the two demo mains.  They configure
kinematic chains (joint types, constraint masks, centers, maximum
deviations), build linked segment meshes, and invoke the library solver
solve_ik_ccd once per tick.  The library itself (the TransformObject
class with solve_ik_ccd, link_parent and the per-axis constraint clamp,
and the utility euler_to_offset) is not part of the sources given here,
so those pieces are modelled from the specification; everything
configured or driven by the two demo mains is translated from the
source.
-/

namespace Dexvt

/-- An axis index: 0, 1, 2 for the three local axes. -/
abbrev Axis := Fin 3

/-- Joint kinds, from the constant JOINT_TYPE_PRISMATIC used by the
demos and the rotational default described by the specification. -/
inductive JointType where
  | rotational : JointType
  | prismatic : JointType
deriving DecidableEq

/-- Modelled from the spec: the per-node joint constraint policy of the
absent TransformObject class (section 3 of the specification): an enable
mask over the three axes, a constraint center and a symmetric maximum
deviation per axis.  The demos set these through
set_enable_joint_constraints, set_joint_constraints_center and
set_joint_constraints_max_deviation. -/
structure JointConstraintPolicy where
  enableMask : Axis → Bool
  center : Axis → ℚ
  maxDeviation : Axis → ℚ
deriving DecidableEq

/-- A segment of a kinematic chain: its joint type, its read-only
constraint policy, and the per-axis local value the solver mutates
(euler angles for rotational joints, origin offsets for prismatic
joints). -/
structure SegmentState where
  jointType : JointType
  policy : JointConstraintPolicy
  localValue : Axis → ℚ
deriving DecidableEq

/-- A kinematic chain, base to tip: index 0 is the base, the last index
is the tip. -/
abbrev Chain := List SegmentState

/-- Modelled from the spec: the clamp contract of the absent
JointConstraintPolicy code (section 4.2): on a disabled axis the
proposal is rejected outright and the current value is returned; on an
enabled axis the proposal is clamped into the closed interval from
center minus maxDeviation to center plus maxDeviation. -/
def clampAxis (p : JointConstraintPolicy) (axis : Axis) (current proposed : ℚ) : ℚ :=
  if p.enableMask axis then
    min (p.center axis + p.maxDeviation axis)
      (max (p.center axis - p.maxDeviation axis) proposed)
  else current

/-- A proposal function: given the current chain, the index of the
joint being visited and an axis, it yields the proposed new local value
on that axis.  The geometric computation of the absent solver (aligning
the to-effector vector toward the to-target vector) is kept abstract
behind this parameter; every theorem below holds for all proposal
functions, hence for the actual geometric one at any target. -/
abbrev Propose := Chain → ℕ → Axis → ℚ

/-- Modelled from the spec: one joint update of the absent CCD solver
(section 4.4, step a): propose a new local value per axis and pass each
proposed axis value through the clamp; the joint type and the policy
are read-only. -/
def updateJoint (propose : Propose) (st : Chain) (j : ℕ) : Chain :=
  match st[j]? with
  | none => st
  | some seg =>
      st.set j
        { seg with
          localValue := fun a => clampAxis seg.policy a (seg.localValue a) (propose st j a) }

/-- The order in which one sweep visits the joints of a chain of k
segments: from the tip (index k - 1) down to the base (index 0). -/
def visitOrder : ℕ → List ℕ
  | 0 => []
  | k + 1 => k :: visitOrder k

/-- Modelled from the spec: one full tip-to-base sweep of the absent
CCD solver (section 4.4, step a applied to each node in reverse index
order). -/
def sweep (propose : Propose) (st : Chain) : Chain :=
  (visitOrder st.length).foldl (updateJoint propose) st

/-- The chain after n full sweeps. -/
def sweeps (propose : Propose) (n : ℕ) (st : Chain) : Chain :=
  (sweep propose)^[n] st

/-- Modelled from the spec: the absent solver solve_ik_ccd (section
4.4): up to the iteration budget, run one full tip-to-base sweep, then
stop if the convergence test succeeds; when the budget is exhausted the
last achieved pose is returned.  The convergence test (end-effector
distance and optional orientation error against the thresholds) is kept
abstract behind the conv parameter. -/
def solve_ik_ccd (propose : Propose) (conv : Chain → Bool) : ℕ → Chain → Chain
  | 0, st => st
  | i + 1, st =>
      if conv (sweep propose st) then sweep propose st
      else solve_ik_ccd propose conv i (sweep propose st)

/-- The shape relation between a chain and a chain that the solver
produced from it: same length, same joint types and policies at every
index, and unchanged local value on every disabled axis. -/
def Shape (st st' : Chain) : Prop :=
  st'.length = st.length ∧
  ∀ (j : ℕ) (seg seg' : SegmentState), st[j]? = some seg → st'[j]? = some seg' →
    seg'.jointType = seg.jointType ∧ seg'.policy = seg.policy ∧
    ∀ a : Axis, seg.policy.enableMask a = false → seg'.localValue a = seg.localValue a

/-- The segment sits inside its constraint interval on one axis. -/
def InBounds (seg : SegmentState) (a : Axis) : Prop :=
  seg.policy.center a - seg.policy.maxDeviation a ≤ seg.localValue a ∧
  seg.localValue a ≤ seg.policy.center a + seg.policy.maxDeviation a

/-- At index j of a chain, any segment present with an enabled axis a
and a nonnegative maximum deviation on it is inside its constraint
interval on a. -/
def BoundedAt (st : Chain) (j : ℕ) (a : Axis) : Prop :=
  ∀ seg : SegmentState, st[j]? = some seg →
    seg.policy.enableMask a = true → 0 ≤ seg.policy.maxDeviation a → InBounds seg a

/-! The kinematic chain of the rail demo, from init_resources in
src/src/main_rail.cpp, lines 266 to 291: three rotational segments of
length IK_SEGMENT_LENGTH = 1; the base segment gets enable mask
(1, 0, 0), the remaining segments get enable mask (1, 0, 1), all with
constraint center (0, 0, 0) and maximum deviation (0, 0, 0); every
segment starts with euler angles (0, 0, 0), which is the local value
the solver mutates for rotational joints. -/

def railPolicyBase : JointConstraintPolicy :=
  { enableMask := ![true, false, false]
    center := fun _ => 0
    maxDeviation := fun _ => 0 }

def railPolicyRest : JointConstraintPolicy :=
  { enableMask := ![true, false, true]
    center := fun _ => 0
    maxDeviation := fun _ => 0 }

def railSeg0 : SegmentState :=
  { jointType := JointType.rotational
    policy := railPolicyBase
    localValue := fun _ => 0 }

def railSeg1 : SegmentState :=
  { jointType := JointType.rotational
    policy := railPolicyRest
    localValue := fun _ => 0 }

def railChain : Chain := [railSeg0, railSeg1, railSeg1]

/-- The base segment of the rail chain after one joint update with the
constant proposal 7 on every axis: used as the concrete outcome of one
solve invocation in a witness. -/
def railSeg0Solved : SegmentState :=
  { jointType := JointType.rotational
    policy := railPolicyBase
    localValue := fun a => clampAxis railPolicyBase a (railSeg0.localValue a) 7 }

/-! The two-segment hexapod leg of the stewart demo, from
init_resources in src/src/main_stewart.cpp, lines 266 to 284: segments
of length IK_SEGMENT_LENGTH = 1.5; the root segment keeps its defaults
and is placed externally every tick, the second segment is made
prismatic with enable mask (1, 1, 1), constraint center (0, 0, 0.75)
and maximum deviation (0, 0, 0.75); its initial local origin, set right
after linking, is (0, 0, 1.5). -/

def hexapodPolicy1 : JointConstraintPolicy :=
  { enableMask := fun _ => true
    center := ![0, 0, 3/4]
    maxDeviation := ![0, 0, 3/4] }

def hexapodSeg0 : SegmentState :=
  { jointType := JointType.rotational
    policy :=
      { enableMask := fun _ => false
        center := fun _ => 0
        maxDeviation := fun _ => 0 }
    localValue := fun _ => 0 }

def hexapodSeg1 : SegmentState :=
  { jointType := JointType.prismatic
    policy := hexapodPolicy1
    localValue := ![0, 0, 3/2] }

def hexapodLegChain : Chain := [hexapodSeg0, hexapodSeg1]

/-- The prismatic segment after one joint update with the constant
proposal 9: used as the concrete outcome of one sweep in a witness. -/
def hexapodSeg1Swept : SegmentState :=
  { jointType := JointType.prismatic
    policy := hexapodPolicy1
    localValue := fun a => clampAxis hexapodPolicy1 a (hexapodSeg1.localValue a) 9 }

/-- The prismatic segment after two joint updates with the constant
proposal 0: used as the concrete outcome of a two-iteration solve in a
witness. -/
def hexapodSeg1Solved : SegmentState :=
  { jointType := JointType.prismatic
    policy := hexapodPolicy1
    localValue := fun a =>
      clampAxis hexapodPolicy1 a (clampAxis hexapodPolicy1 a (hexapodSeg1.localValue a) 0) 0 }

/-! Transform poses and link_parent. -/

/-- An affine transform of 3-space over the rationals: a linear part
and a translation, standing for the local and world matrices of the
absent TransformObject class. -/
structure Affine where
  linear : Matrix (Fin 3) (Fin 3) ℚ
  transl : Fin 3 → ℚ

/-- Composition of affine transforms: the first applied after the
second, matching the parent-times-local composition of world
matrices. -/
def Affine.comp (f g : Affine) : Affine :=
  { linear := f.linear * g.linear
    transl := f.linear.mulVec g.transl + f.transl }

/-- The inverse affine transform, with the matrix inverse written
through the adjugate so that it is an executable function. -/
def Affine.inverse (f : Affine) : Affine :=
  { linear := (f.linear.det)⁻¹ • f.linear.adjugate
    transl := -(((f.linear.det)⁻¹ • f.linear.adjugate).mulVec f.transl) }

/-- A transform node: its local pose and, when linked, the world pose
of its parent (the parent back-reference is summarized by the world
pose it contributes). -/
structure TransformNode where
  localPose : Affine
  parentWorld : Option Affine

/-- The derived world pose of a node: the parent world pose composed
with the local pose, or the local pose alone at the root. -/
def worldPose (n : TransformNode) : Affine :=
  match n.parentWorld with
  | none => n.localPose
  | some p => p.comp n.localPose

/-- Modelled from the spec: the absent member function link_parent
(section 4.1): establish the parent back-reference; when
preserve_world_pose is true, recompute the local pose as the inverse of
the new parent world pose composed with the current world pose, so that
the world pose is unchanged immediately after linking. -/
def link_parent (n : TransformNode) (p : Affine) (preserve_world_pose : Bool) : TransformNode :=
  if preserve_world_pose then
    { localPose := (Affine.inverse p).comp (worldPose n), parentWorld := some p }
  else
    { localPose := n.localPose, parentWorld := some p }

/-- A concrete parent pose for the link_parent witness. -/
def linkDemoParent : Affine := { linear := 1, transl := fun _ => 0 }

/-- A concrete unlinked node for the link_parent witness. -/
def linkDemoNode : TransformNode :=
  { localPose := { linear := 1, transl := ![1, 2, 3] }, parentWorld := none }

/-! The mesh-building helper create_linked_segments. -/

abbrev Vec3Q := Fin 3 → ℚ

/-- A mesh as far as create_linked_segments determines it: its name,
the name of the mesh it was linked to with preserve_world_pose = true
(none for the first segment), and the local origin assigned after
linking.  The purely visual library operations on the mesh (primitive
creation, centering, scaling, flattening, materials) are carried by the
absent rendering library and are not part of this model. -/
structure MeshModel where
  name : String
  parentName : Option String
  origin : Vec3Q
deriving DecidableEq

/-- A scene as far as create_linked_segments touches it: the list of
meshes added to it, in order. -/
structure SceneModel where
  meshes : List MeshModel
deriving DecidableEq

/-- The name given to segment i of a run of linked segments: the base
name, an underscore, and the index. -/
def segmentName (name : String) (i : ℕ) : String := name ++ "_" ++ toString i

/-- The mesh built by loop iteration i of create_linked_segments: the
first segment keeps origin (0, 0, 0) and has no parent; every later
segment is linked to its predecessor and then given origin
(0, 0, box_dim.z). -/
def segmentMesh (name : String) (boxDimZ : ℚ) (i : ℕ) : MeshModel :=
  if i = 0 then
    { name := segmentName name 0, parentName := none, origin := ![0, 0, 0] }
  else
    { name := segmentName name i
      parentName := some (segmentName name (i - 1))
      origin := ![0, 0, boxDimZ] }

/-- From create_linked_segments in src/src/main_rail.cpp lines 118 to
147 and src/src/main_stewart.cpp lines 140 to 178: if the scene pointer
or the output vector pointer is null, return immediately; otherwise run
the loop for i from 0 up to ik_segment_count (an int, so no iterations
when it is not positive), adding each mesh to the scene and appending
it to the output vector. -/
def create_linked_segments (scene : Option SceneModel) (ik_meshes : Option (List MeshModel))
    (ik_segment_count : Int) (name : String) (boxDimZ : ℚ) :
    Option SceneModel × Option (List MeshModel) :=
  match scene, ik_meshes with
  | some sc, some ms =>
      (some { meshes :=
                sc.meshes ++ (List.range ik_segment_count.toNat).map (segmentMesh name boxDimZ) },
       some (ms ++ (List.range ik_segment_count.toNat).map (segmentMesh name boxDimZ)))
  | sc, ms => (sc, ms)

/-! The per-tick target of the rail demo. -/

abbrev Vec3R := Fin 3 → ℝ

/-- From src/src/main_rail.cpp line 99: the angle increment, in
degrees, applied each tick; it is never modified anywhere in the
file. -/
def angle_delta : Int := 1

/-- From onTick in src/src/main_rail.cpp line 344: the static angle is
advanced by angle_delta modulo 360 each tick. -/
def tick_angle_update (angle : Int) : Int := (angle + angle_delta) % 360

/-- From onSpecial in src/src/main_rail.cpp lines 463 to 469: the HOME
key advances target_index by one modulo the eight-entry target
array. -/
def home_target_index_update (t : Int) : Int := (t + 1) % 8

/-- The eight fixed waypoints of the rail demo, from
src/src/main_rail.cpp lines 102 to 109. -/
noncomputable def rail_targets : Fin 8 → Vec3R :=
  ![![1, 2, 2], ![1, 2, -2], ![-1, 2, -2], ![-1, 2, 2],
    ![2, 2, 1], ![2, 2, -1], ![-2, 2, -1], ![-2, 2, 1]]

/-- The waypoint selected by an integer target index. -/
noncomputable def railTarget (t : Int) : Vec3R :=
  rail_targets ⟨t.toNat % 8, Nat.mod_lt _ (by norm_num)⟩

/-- LOCAL_TARGET_OFFSET_RADIUS, src/src/main_rail.cpp line 59. -/
def local_target_offset_radius : ℝ := 1

/-- Degrees to radians. -/
noncomputable def degToRad (d : Int) : ℝ := (d : ℝ) * Real.pi / 180

/-- Modelled from the spec: the absent utility euler_to_offset applied
to the pure yaw euler (0, 0, angle) used by onTick: the unit forward
direction turned by the yaw angle, tracing the horizontal unit
circle. -/
noncomputable def yaw_offset (angle : Int) : Vec3R :=
  ![Real.sin (degToRad angle), 0, Real.cos (degToRad angle)]

/-- The target position actually passed to solve_ik_ccd on a tick, from
onTick in src/src/main_rail.cpp lines 333 to 342: the current waypoint
plus the angle-derived offset scaled by LOCAL_TARGET_OFFSET_RADIUS. -/
noncomputable def rail_solve_target (t angle : Int) : Vec3R :=
  fun k => railTarget t k + yaw_offset angle k * local_target_offset_radius

/-- The squared euclidean norm of a 3-vector. -/
noncomputable def norm3sq (v : Vec3R) : ℝ := v 0 ^ 2 + v 1 ^ 2 + v 2 ^ 2

/-! Basic facts about a single joint update. -/

theorem updateJoint_length (propose : Propose) (st : Chain) (j : ℕ) :
    (updateJoint propose st j).length = st.length := by
  unfold updateJoint
  split
  · rfl
  · simp

theorem updateJoint_getElem?_ne (propose : Propose) (st : Chain) (i j : ℕ) (h : i ≠ j) :
    (updateJoint propose st i)[j]? = st[j]? := by
  unfold updateJoint
  split
  · rfl
  · exact List.getElem?_set_ne h

theorem updateJoint_getElem?_self (propose : Propose) (st : Chain) (j : ℕ) (seg : SegmentState)
    (h : st[j]? = some seg) :
    (updateJoint propose st j)[j]? =
      some { seg with
             localValue := fun a => clampAxis seg.policy a (seg.localValue a) (propose st j a) } := by
  have hj : j < st.length := (List.getElem?_eq_some.mp h).1
  unfold updateJoint
  rw [h]
  exact List.getElem?_set_eq_of_lt _ hj

theorem updateJoint_of_none (propose : Propose) (st : Chain) (j : ℕ) (h : st[j]? = none) :
    updateJoint propose st j = st := by
  unfold updateJoint
  rw [h]

/-! Shape facts: the solver keeps the chain length, every joint type
and every policy, and never modifies the local value of a disabled
axis. -/

theorem shape_refl (st : Chain) : Shape st st := by
  refine ⟨rfl, fun j seg seg' h h' => ?_⟩
  rw [h] at h'
  cases h'
  exact ⟨rfl, rfl, fun a _ => rfl⟩

theorem shape_trans (s1 s2 s3 : Chain) (h12 : Shape s1 s2) (h23 : Shape s2 s3) : Shape s1 s3 := by
  obtain ⟨hl12, hp12⟩ := h12
  obtain ⟨hl23, hp23⟩ := h23
  refine ⟨hl23.trans hl12, fun j seg seg' h h' => ?_⟩
  have hj1 : j < s1.length := (List.getElem?_eq_some.mp h).1
  have hj2 : j < s2.length := by omega
  obtain ⟨segm, hm⟩ : ∃ x, s2[j]? = some x := ⟨s2[j], List.getElem?_eq_getElem hj2⟩
  obtain ⟨ht1, hpol1, hv1⟩ := hp12 j seg segm h hm
  obtain ⟨ht2, hpol2, hv2⟩ := hp23 j segm seg' hm h'
  refine ⟨ht2.trans ht1, hpol2.trans hpol1, fun a ha => ?_⟩
  have ha2 : segm.policy.enableMask a = false := by rw [hpol1]; exact ha
  rw [hv2 a ha2, hv1 a ha]

theorem shape_updateJoint (propose : Propose) (st : Chain) (i : ℕ) :
    Shape st (updateJoint propose st i) := by
  refine ⟨updateJoint_length propose st i, fun j seg seg' h h' => ?_⟩
  by_cases hij : i = j
  · subst hij
    rw [updateJoint_getElem?_self propose st i seg h] at h'
    cases h'
    refine ⟨rfl, rfl, fun a ha => ?_⟩
    simp [clampAxis, ha]
  · rw [updateJoint_getElem?_ne propose st i j hij, h] at h'
    cases h'
    exact ⟨rfl, rfl, fun a _ => rfl⟩

theorem shape_foldl (propose : Propose) (l : List ℕ) (st : Chain) :
    Shape st (l.foldl (updateJoint propose) st) := by
  induction l generalizing st with
  | nil => exact shape_refl st
  | cons i t ih =>
      exact shape_trans _ _ _ (shape_updateJoint propose st i) (ih (updateJoint propose st i))

theorem shape_sweep (propose : Propose) (st : Chain) : Shape st (sweep propose st) :=
  shape_foldl propose (visitOrder st.length) st

theorem shape_sweeps (propose : Propose) (n : ℕ) (st : Chain) :
    Shape st (sweeps propose n st) := by
  induction n with
  | zero => exact shape_refl st
  | succ n ih =>
      have h : sweeps propose (n + 1) st = sweep propose (sweeps propose n st) :=
        Function.iterate_succ_apply' (sweep propose) n st
      rw [h]
      exact shape_trans _ _ _ ih (shape_sweep propose (sweeps propose n st))

theorem shape_solve (propose : Propose) (conv : Chain → Bool) (I : ℕ) (st : Chain) :
    Shape st (solve_ik_ccd propose conv I st) := by
  induction I generalizing st with
  | zero => exact shape_refl st
  | succ i ih =>
      simp only [solve_ik_ccd]
      split
      · exact shape_sweep propose st
      · exact shape_trans _ _ _ (shape_sweep propose st) (ih (sweep propose st))

/-! Bounds facts: on an enabled axis with nonnegative maximum
deviation, the clamp always lands inside the constraint interval, and
every sweep re-clamps every joint, so every joint is inside its
interval after each full sweep. -/

theorem clampAxis_mem (p : JointConstraintPolicy) (a : Axis) (cur prop : ℚ)
    (hmask : p.enableMask a = true) (hdev : 0 ≤ p.maxDeviation a) :
    p.center a - p.maxDeviation a ≤ clampAxis p a cur prop ∧
    clampAxis p a cur prop ≤ p.center a + p.maxDeviation a := by
  unfold clampAxis
  rw [hmask]
  simp only [if_true]
  exact ⟨le_min (by linarith) (le_max_left _ _), min_le_left _ _⟩

theorem boundedAt_updateJoint_self (propose : Propose) (st : Chain) (j : ℕ) (a : Axis) :
    BoundedAt (updateJoint propose st j) j a := by
  intro seg' h' hmask hdev
  cases h : st[j]? with
  | none =>
      rw [updateJoint_of_none propose st j h, h] at h'
      cases h'
  | some seg =>
      rw [updateJoint_getElem?_self propose st j seg h] at h'
      cases h'
      exact clampAxis_mem seg.policy a (seg.localValue a) (propose st j a) hmask hdev

theorem boundedAt_updateJoint (propose : Propose) (st : Chain) (i j : ℕ) (a : Axis)
    (hb : BoundedAt st j a) : BoundedAt (updateJoint propose st i) j a := by
  by_cases hij : i = j
  · subst hij
    exact boundedAt_updateJoint_self propose st i a
  · intro seg' h' hmask hdev
    rw [updateJoint_getElem?_ne propose st i j hij] at h'
    exact hb seg' h' hmask hdev

theorem boundedAt_foldl (propose : Propose) (l : List ℕ) (st : Chain) (j : ℕ) (a : Axis)
    (hb : BoundedAt st j a) : BoundedAt (l.foldl (updateJoint propose) st) j a := by
  induction l generalizing st with
  | nil => exact hb
  | cons i t ih => exact ih (updateJoint propose st i) (boundedAt_updateJoint propose st i j a hb)

theorem boundedAt_foldl_mem (propose : Propose) (l : List ℕ) (st : Chain) (j : ℕ) (a : Axis)
    (hj : j ∈ l) : BoundedAt (l.foldl (updateJoint propose) st) j a := by
  induction l generalizing st with
  | nil => cases hj
  | cons i t ih =>
      by_cases hjt : j ∈ t
      · exact ih (updateJoint propose st i) hjt
      · have hij : i = j := by
          cases List.mem_cons.mp hj with
          | inl h => exact h.symm
          | inr h => exact absurd h hjt
        subst hij
        exact boundedAt_foldl propose t (updateJoint propose st i) i a
          (boundedAt_updateJoint_self propose st i a)

theorem visitOrder_length (k : ℕ) : (visitOrder k).length = k := by
  induction k with
  | zero => rfl
  | succ k ih => simp [visitOrder, ih]

theorem mem_visitOrder (j k : ℕ) (h : j < k) : j ∈ visitOrder k := by
  induction k with
  | zero => omega
  | succ k ih =>
      rcases Nat.lt_succ_iff_lt_or_eq.mp h with h' | h'
      · exact List.mem_cons.mpr (Or.inr (ih h'))
      · subst h'
        exact List.mem_cons_self _ _

theorem boundedAt_sweep (propose : Propose) (st : Chain) (j : ℕ) (a : Axis)
    (hj : j < st.length) : BoundedAt (sweep propose st) j a :=
  boundedAt_foldl_mem propose (visitOrder st.length) st j a (mem_visitOrder j st.length hj)

/-! The solver as an early-exiting iteration of sweeps. -/

theorem sweeps_succ (propose : Propose) (n : ℕ) (st : Chain) :
    sweeps propose (n + 1) st = sweeps propose n (sweep propose st) :=
  Function.iterate_succ_apply (sweep propose) n st

theorem sweeps_succ' (propose : Propose) (n : ℕ) (st : Chain) :
    sweeps propose (n + 1) st = sweep propose (sweeps propose n st) :=
  Function.iterate_succ_apply' (sweep propose) n st

theorem solve_eq_sweeps (propose : Propose) (conv : Chain → Bool) (I : ℕ) (st : Chain) :
    ∃ m, m ≤ I ∧ (1 ≤ I → 1 ≤ m) ∧ solve_ik_ccd propose conv I st = sweeps propose m st := by
  induction I generalizing st with
  | zero => exact ⟨0, le_refl 0, by omega, rfl⟩
  | succ i ih =>
      simp only [solve_ik_ccd]
      split
      · exact ⟨1, by omega, fun _ => le_refl 1, rfl⟩
      · obtain ⟨m, hm, _, heq⟩ := ih (sweep propose st)
        refine ⟨m + 1, by omega, by omega, ?_⟩
        rw [heq, ← sweeps_succ]

theorem solve_of_no_conv (propose : Propose) (conv : Chain → Bool) (I : ℕ) (st : Chain)
    (h : ∀ n, n ≤ I → conv (sweeps propose n st) = false) :
    solve_ik_ccd propose conv I st = sweeps propose I st := by
  induction I generalizing st with
  | zero => rfl
  | succ i ih =>
      have h1 : conv (sweep propose st) = false := h 1 (by omega)
      simp only [solve_ik_ccd, h1, Bool.false_eq_true, if_false]
      rw [ih (sweep propose st) ?_, ← sweeps_succ]
      intro n hn
      have hh := h (n + 1) (by omega)
      rwa [sweeps_succ] at hh

/-! The tip-to-base visit order, compared with the base-to-tip order. -/

theorem visitOrder_eq_reverse_range (k : ℕ) : visitOrder k = (List.range k).reverse := by
  induction k with
  | zero => rfl
  | succ k ih =>
      rw [visitOrder, ih]
      rw [show List.range (k + 1) = List.range k ++ [k] from List.range_succ k]
      rw [List.reverse_append]
      rfl

theorem visitOrder_getElem? (k i : ℕ) (h : i < k) : (visitOrder k)[i]? = some (k - 1 - i) := by
  induction k generalizing i with
  | zero => omega
  | succ k ih =>
      cases i with
      | zero => simp [visitOrder]
      | succ i =>
          have hik : i < k := by omega
          rw [visitOrder]
          simp only [List.getElem?_cons_succ]
          rw [ih i hik]
          congr 1
          omega

theorem visitOrder_ne_range (k : ℕ) (h : 2 ≤ k) : visitOrder k ≠ List.range k := by
  intro he
  have h1 : (visitOrder k)[0]? = some (k - 1 - 0) := visitOrder_getElem? k 0 (by omega)
  rw [he, List.getElem?_range (by omega)] at h1
  have h2 := Option.some.inj h1
  omega

/-! Facts about affine composition and inversion. -/

theorem affine_comp_inverse_comp (p W : Affine) (h : p.linear.det ≠ 0) :
    p.comp ((Affine.inverse p).comp W) = W := by
  have hinv : p.linear * ((p.linear.det)⁻¹ • p.linear.adjugate) = 1 := by
    rw [Matrix.mul_smul, Matrix.mul_adjugate, smul_smul, inv_mul_cancel₀ h, one_smul]
  obtain ⟨A, b⟩ := W
  simp only [Affine.comp, Affine.inverse, Affine.mk.injEq]
  constructor
  · rw [← mul_assoc, hinv, one_mul]
  · rw [Matrix.mulVec_add, Matrix.mulVec_neg, Matrix.mulVec_mulVec, Matrix.mulVec_mulVec, hinv,
      Matrix.one_mulVec, Matrix.one_mulVec]
    abel

/-! Claims C1 to C4 and C6 about the CCD solver. -/

/-- Claim C1: for every solver invocation on a chain, and for every
node in the chain and every axis whose joint-constraint enable mask is
false, the local value of the node on that axis after the call equals
its value before the call: the solver never modifies a disabled
axis. -/
theorem solver_preserves_disabled_axes (propose : Propose) (conv : Chain → Bool) (I : ℕ)
    (st : Chain) (j : ℕ) (a : Axis) (seg seg' : SegmentState)
    (h : st[j]? = some seg)
    (h' : (solve_ik_ccd propose conv I st)[j]? = some seg')
    (hmask : seg.policy.enableMask a = false) :
    seg'.localValue a = seg.localValue a :=
  ((shape_solve propose conv I st).2 j seg seg' h h').2.2 a hmask

/-- Witness for claim C1 on the rail-demo chain: the base segment has
its second axis disabled, and one solve invocation with an arbitrary
proposal leaves that axis at its initial value. -/
theorem solver_preserves_disabled_axes_witness :
    railChain[0]? = some railSeg0 ∧
    (solve_ik_ccd (fun _ _ _ => 7) (fun _ => false) 1 railChain)[0]? = some railSeg0Solved ∧
    railSeg0.policy.enableMask 1 = false ∧
    railSeg0Solved.localValue 1 = railSeg0.localValue 1 :=
  ⟨rfl, by with_unfolding_all rfl, by with_unfolding_all rfl,
    solver_preserves_disabled_axes (fun _ _ _ => 7) (fun _ => false) 1 railChain 0 1
      railSeg0 railSeg0Solved rfl (by with_unfolding_all rfl) (by with_unfolding_all rfl)⟩

/-- Claim C2: for every node and every axis whose joint-constraint
enable mask is true (and whose configured maximum deviation is a valid
nonnegative half-range, as in every configuration the demos build), the
local value of the node on that axis lies within the closed interval
from center minus maximum deviation to center plus maximum deviation
after every full sweep of the solver, hence after every iteration of
the solve, not only after the final one. -/
theorem enabled_axis_bounded_each_iteration (propose : Propose) (st : Chain) (j : ℕ) (a : Axis)
    (seg' : SegmentState)
    (h' : (sweep propose st)[j]? = some seg')
    (hmask : seg'.policy.enableMask a = true)
    (hdev : 0 ≤ seg'.policy.maxDeviation a) :
    seg'.policy.center a - seg'.policy.maxDeviation a ≤ seg'.localValue a ∧
    seg'.localValue a ≤ seg'.policy.center a + seg'.policy.maxDeviation a := by
  have hj : j < st.length := by
    have h1 := (List.getElem?_eq_some.mp h').1
    have h2 : (sweep propose st).length = st.length := (shape_sweep propose st).1
    omega
  exact boundedAt_sweep propose st j a hj seg' h' hmask hdev

/-- Witness for claim C2 on the hexapod-leg chain: after one sweep with
an out-of-range proposal, the prismatic segment sits inside its
constraint interval on the Z axis. -/
theorem enabled_axis_bounded_each_iteration_witness :
    (sweep (fun _ _ _ => 9) hexapodLegChain)[1]? = some hexapodSeg1Swept ∧
    hexapodSeg1Swept.policy.enableMask 2 = true ∧
    ((0 : ℚ) ≤ hexapodSeg1Swept.policy.maxDeviation 2) ∧
    (hexapodSeg1Swept.policy.center 2 - hexapodSeg1Swept.policy.maxDeviation 2 ≤
        hexapodSeg1Swept.localValue 2 ∧
      hexapodSeg1Swept.localValue 2 ≤
        hexapodSeg1Swept.policy.center 2 + hexapodSeg1Swept.policy.maxDeviation 2) :=
  ⟨by with_unfolding_all rfl, by with_unfolding_all rfl,
    by
      have h : hexapodSeg1Swept.policy.maxDeviation 2 = 3 / 4 := by with_unfolding_all rfl
      rw [h]
      norm_num,
    enabled_axis_bounded_each_iteration (fun _ _ _ => 9) hexapodLegChain 1 2 hexapodSeg1Swept
      (by with_unfolding_all rfl) (by with_unfolding_all rfl)
      (by
        have h : hexapodSeg1Swept.policy.maxDeviation 2 = 3 / 4 := by with_unfolding_all rfl
        rw [h]
        norm_num)⟩

/-- Claim C3: every solve call terminates after at most I full sweeps,
its result being the chain after some number m of sweeps with m at most
I (the model is a total function, so no exception is possible), and
when the budget is exhausted without the convergence test ever
succeeding the result is exactly the chain after all I sweeps: the last
achieved pose is kept, never reverted and never turned into an
error. -/
theorem solve_ik_ccd_bounded_sweeps_keeps_last_pose (propose : Propose) (conv : Chain → Bool)
    (I : ℕ) (st : Chain) :
    (∃ m, m ≤ I ∧ solve_ik_ccd propose conv I st = sweeps propose m st) ∧
    ((∀ n, n ≤ I → conv (sweeps propose n st) = false) →
      solve_ik_ccd propose conv I st = sweeps propose I st) := by
  obtain ⟨m, hm, _, heq⟩ := solve_eq_sweeps propose conv I st
  exact ⟨⟨m, hm, heq⟩, solve_of_no_conv propose conv I st⟩

/-- Witness for claim C3: with a convergence test that never succeeds
and a budget of one iteration, the solve of the rail chain is exactly
one full sweep. -/
theorem solve_ik_ccd_bounded_sweeps_keeps_last_pose_witness :
    solve_ik_ccd (fun _ _ _ => 0) (fun _ => false) 1 railChain =
      sweeps (fun _ _ _ => 0) 1 railChain :=
  (solve_ik_ccd_bounded_sweeps_keeps_last_pose (fun _ _ _ => 0) (fun _ => false) 1 railChain).2
    (fun _ _ => rfl)

/-- Claim C4: within each iteration of a solve call, the joints of a
chain of k segments are visited in reverse index order, from the tip
node at index k - 1 down to the base node at index 0, and for two or
more segments this differs from the base-to-tip order; one sweep is
exactly the fold of the joint update along that visit order. -/
theorem sweep_visits_tip_to_base (k : ℕ) :
    visitOrder k = (List.range k).reverse ∧
    (∀ i, i < k → (visitOrder k)[i]? = some (k - 1 - i)) ∧
    (2 ≤ k → visitOrder k ≠ List.range k) ∧
    (∀ (propose : Propose) (st : Chain),
      sweep propose st = (visitOrder st.length).foldl (updateJoint propose) st) :=
  ⟨visitOrder_eq_reverse_range k, fun i hi => visitOrder_getElem? k i hi,
    visitOrder_ne_range k, fun _ _ => rfl⟩

/-- Witness for claim C4 at chain length three: the second visited
joint is the middle one, and the visit order is not the base-to-tip
order. -/
theorem sweep_visits_tip_to_base_witness :
    (visitOrder 3)[1]? = some 1 ∧ visitOrder 3 ≠ List.range 3 :=
  ⟨(sweep_visits_tip_to_base 3).2.1 1 (by decide),
    (sweep_visits_tip_to_base 3).2.2.1 (by decide)⟩

/-- Claim C6: in the hexapod-leg configuration of the stewart demo (two
segments of length 1.5, second segment prismatic with constraint center
(0, 0, 0.75) and maximum deviation (0, 0, 0.75)), after solve_ik_ccd is
invoked with its budget of 2 iterations toward any target (the target
only enters through the proposal and convergence functions, which are
universally quantified here), the local Z offset of the second segment
lies in the closed interval from 0 to 1.5. -/
theorem hexapod_second_segment_z_offset_in_range (propose : Propose) (conv : Chain → Bool)
    (seg' : SegmentState)
    (h' : (solve_ik_ccd propose conv 2 hexapodLegChain)[1]? = some seg') :
    0 ≤ seg'.localValue 2 ∧ seg'.localValue 2 ≤ 3 / 2 := by
  have hpol : seg'.policy = hexapodPolicy1 :=
    ((shape_solve propose conv 2 hexapodLegChain).2 1 hexapodSeg1 seg' rfl h').2.1
  obtain ⟨m, _, h1m, heq⟩ := solve_eq_sweeps propose conv 2 hexapodLegChain
  have hm1 : 1 ≤ m := h1m (by omega)
  obtain ⟨m', rfl⟩ : ∃ m', m = m' + 1 := ⟨m - 1, by omega⟩
  rw [heq, sweeps_succ' propose m' hexapodLegChain] at h'
  have hlen : (sweeps propose m' hexapodLegChain).length = 2 :=
    (shape_sweeps propose m' hexapodLegChain).1
  have hb := boundedAt_sweep propose (sweeps propose m' hexapodLegChain) 1 2 (by omega)
  have hmask : seg'.policy.enableMask 2 = true := by rw [hpol]; rfl
  have hc : seg'.policy.center 2 = 3 / 4 := by rw [hpol]; with_unfolding_all rfl
  have hd : seg'.policy.maxDeviation 2 = 3 / 4 := by rw [hpol]; with_unfolding_all rfl
  have hdev : 0 ≤ seg'.policy.maxDeviation 2 := by rw [hd]; norm_num
  obtain ⟨hlo, hhi⟩ := hb seg' h' hmask hdev
  rw [hc, hd] at hlo hhi
  constructor <;> linarith

/-- Witness for claim C6: the solve with the zero proposal and a
never-satisfied convergence test leaves the second segment at Z offset
zero, which lies in the required interval. -/
theorem hexapod_second_segment_z_offset_in_range_witness :
    (solve_ik_ccd (fun _ _ _ => 0) (fun _ => false) 2 hexapodLegChain)[1]? =
      some hexapodSeg1Solved ∧
    (0 ≤ hexapodSeg1Solved.localValue 2 ∧ hexapodSeg1Solved.localValue 2 ≤ 3 / 2) :=
  ⟨by with_unfolding_all rfl,
    hexapod_second_segment_z_offset_in_range (fun _ _ _ => 0) (fun _ => false) hexapodSeg1Solved
      (by with_unfolding_all rfl)⟩

/-! Claim C7 about link_parent. -/

/-- Claim C7: for every node, calling link_parent with
preserve_world_pose = true under an invertible parent world pose leaves
the world pose of the node unchanged immediately after linking; only
the local pose is recomputed relative to the new parent. -/
theorem link_parent_preserve_world_pose (n : TransformNode) (p : Affine)
    (h : p.linear.det ≠ 0) :
    worldPose (link_parent n p true) = worldPose n := by
  show p.comp ((Affine.inverse p).comp (worldPose n)) = worldPose n
  exact affine_comp_inverse_comp p (worldPose n) h

/-- Witness for claim C7 at a concrete node and parent pose. -/
theorem link_parent_preserve_world_pose_witness :
    linkDemoParent.linear.det ≠ 0 ∧
    worldPose (link_parent linkDemoNode linkDemoParent true) = worldPose linkDemoNode :=
  ⟨by simp [linkDemoParent],
    link_parent_preserve_world_pose linkDemoNode linkDemoParent (by simp [linkDemoParent])⟩

/-! Claim C9 about create_linked_segments. -/

/-- Claim C9: for every call to create_linked_segments, if the scene
pointer or the output mesh-vector pointer is null the function returns
immediately, creating nothing and leaving both untouched; otherwise it
appends exactly ik_segment_count meshes (for the nonnegative counts the
demos pass) to both the scene and the output vector. -/
theorem create_linked_segments_guard_and_count (scene : Option SceneModel)
    (ik_meshes : Option (List MeshModel)) (ik_segment_count : Int) (name : String) (boxDimZ : ℚ) :
    ((scene = none ∨ ik_meshes = none) →
      create_linked_segments scene ik_meshes ik_segment_count name boxDimZ = (scene, ik_meshes)) ∧
    (∀ (sc : SceneModel) (ms : List MeshModel), scene = some sc → ik_meshes = some ms →
      0 ≤ ik_segment_count →
      ∃ L : List MeshModel,
        create_linked_segments scene ik_meshes ik_segment_count name boxDimZ =
          (some { meshes := sc.meshes ++ L }, some (ms ++ L)) ∧
        (L.length : Int) = ik_segment_count) := by
  constructor
  · intro h
    cases scene with
    | none => rfl
    | some sc =>
        cases ik_meshes with
        | none => rfl
        | some ms => rcases h with h | h <;> simp at h
  · intro sc ms hsc hms hcount
    subst hsc
    subst hms
    refine ⟨(List.range ik_segment_count.toNat).map (segmentMesh name boxDimZ), rfl, ?_⟩
    rw [List.length_map, List.length_range]
    exact Int.toNat_of_nonneg hcount

/-- Witness for claim C9: a null scene is left untouched, and a live
call with the rail-demo count of 3 appends three meshes. -/
theorem create_linked_segments_guard_and_count_witness :
    create_linked_segments none (some []) 3 "ik_box" 1 = (none, some []) ∧
    (∃ L : List MeshModel,
      create_linked_segments (some { meshes := [] }) (some []) 3 "ik_box" 1 =
        (some { meshes := [] ++ L }, some ([] ++ L)) ∧ (L.length : Int) = 3) :=
  ⟨(create_linked_segments_guard_and_count none (some []) 3 "ik_box" 1).1 (Or.inl rfl),
    (create_linked_segments_guard_and_count (some { meshes := [] }) (some []) 3 "ik_box" 1).2
      { meshes := [] } [] rfl rfl (by norm_num)⟩

/-! Claim C10 about the per-tick target of the rail demo. -/

/-- Claim C10: in the rail demo, the target passed to solve_ik_ccd on a
tick is not a raw waypoint but the current waypoint plus an offset of
length LOCAL_TARGET_OFFSET_RADIUS = 1 derived from an angle; the angle
always stays in the interval from 0 up to but excluding 360 (advanced
by angle_delta modulo 360 each tick), the target index always stays in
the interval from 0 up to but excluding 8 (advanced modulo the
eight-entry waypoint array), and the solve target lies on the
horizontal unit-radius circle about the selected waypoint. -/
theorem rail_tick_target_on_unit_circle (angle t : Int)
    (h1 : 0 ≤ angle) (h2 : angle < 360) (h3 : 0 ≤ t) (h4 : t < 8) :
    (0 ≤ tick_angle_update angle ∧ tick_angle_update angle < 360) ∧
    (0 ≤ home_target_index_update t ∧ home_target_index_update t < 8) ∧
    norm3sq (fun k => rail_solve_target t angle k - railTarget t k) =
      local_target_offset_radius ^ 2 ∧
    rail_solve_target t angle 1 - railTarget t 1 = 0 := by
  refine ⟨⟨Int.emod_nonneg _ (by norm_num), Int.emod_lt_of_pos _ (by norm_num)⟩,
          ⟨Int.emod_nonneg _ (by norm_num), Int.emod_lt_of_pos _ (by norm_num)⟩, ?_, ?_⟩
  · simp only [norm3sq, rail_solve_target, yaw_offset, local_target_offset_radius,
      add_sub_cancel_left, Matrix.cons_val_zero, Matrix.cons_val_one, Matrix.head_cons,
      Matrix.cons_val_two, Matrix.tail_cons]
    have hsc := Real.sin_sq_add_cos_sq (degToRad angle)
    nlinarith [hsc]
  · simp [rail_solve_target, yaw_offset]

/-- Witness for claim C10 at angle 0 and target index 0. -/
theorem rail_tick_target_on_unit_circle_witness :
    ((0 : Int) ≤ 0 ∧ (0 : Int) < 360 ∧ (0 : Int) ≤ 0 ∧ (0 : Int) < 8) ∧
    ((0 ≤ tick_angle_update 0 ∧ tick_angle_update 0 < 360) ∧
      (0 ≤ home_target_index_update 0 ∧ home_target_index_update 0 < 8) ∧
      norm3sq (fun k => rail_solve_target 0 0 k - railTarget 0 k) =
        local_target_offset_radius ^ 2 ∧
      rail_solve_target 0 0 1 - railTarget 0 1 = 0) :=
  ⟨by norm_num,
    rail_tick_target_on_unit_circle 0 0 (by norm_num) (by norm_num) (by norm_num) (by norm_num)⟩

end Dexvt
